import Mathlib

/-!
Verification of the emit.gg WebSocket framework (server core, codec, client
options, and the horizontal-scaling adapter's user-presence operations)
against a shallow Lean embedding of the JavaScript source.

Conventions used throughout:
* JavaScript values travelling on the wire are modelled by the `JVal` type of
  JSON values; `JSON.parse (JSON.stringify v)` is the identity on
  JSON-serializable values, so a serialized frame is represented by its JSON
  value rather than by its string rendering.
* JavaScript `Map`s are modelled as association lists looked up by first
  match; `Set`s are modelled as duplicate-free lists with insert-if-absent
  and removal by filtering, which reproduces `Set.add` / `Set.delete`
  observably.
* Fallible operations are modelled with `Option` / `Except`.
-/

set_option maxHeartbeats 1000000

namespace EmitGG

/-- JSON values (the payloads carried on the wire). Numbers are restricted to
integers, which covers every numeric literal appearing in the modelled code
(the codec's type-marker enum 0/1). -/
inductive JVal where
  | null : JVal
  | bool (b : Bool) : JVal
  | num (n : Int) : JVal
  | str (s : String) : JVal
  | arr (elems : List JVal) : JVal
  | obj (fields : List (String × JVal)) : JVal
  deriving Repr

/-- First-match association-list lookup, the model of JavaScript property
access `o[k]` on a plain object (object keys are unique, so first match is
exact). -/
def assocFind (k : String) : List (String × JVal) → Option JVal
  | [] => none
  | p :: rest => if p.1 = k then some p.2 else assocFind k rest

/-- Property access `parsed.k`: an object yields its field (or `undefined`,
here `none`); any non-object yields `undefined`. -/
def getField (v : JVal) (k : String) : Option JVal :=
  match v with
  | JVal.obj fields => assocFind k fields
  | _ => none

namespace Utils

/-- Truthiness of the codec's optional `ackId` string argument: JavaScript
`if (ackId)` is false for a missing argument and for the empty string. -/
def ackTruthy : Option String → Bool
  | none => false
  | some s => !(s == "")

/-- `utils.js` `encode(event, data, ackId)`: builds `{e, d}` and, when `ackId`
is truthy, adds `a = ackId` and the event type marker `t = 0`. -/
def encode (event : String) (data : JVal) (ackId : Option String) : JVal :=
  match ackId with
  | some a =>
      if a = "" then JVal.obj [("e", JVal.str event), ("d", data)]
      else JVal.obj [("e", JVal.str event), ("d", data),
                     ("a", JVal.str a), ("t", JVal.num 0)]
  | none => JVal.obj [("e", JVal.str event), ("d", data)]

/-- `utils.js` `encodeAck(ackId, data)`: `{t: 1, a: ackId, d: data}`. -/
def encodeAck (ackId : String) (data : JVal) : JVal :=
  JVal.obj [("t", JVal.num 1), ("a", JVal.str ackId), ("d", data)]

/-- Result of `utils.js` `decode`. Fields that may be `undefined` in the
JavaScript record are `Option`s. -/
inductive Decoded where
  | ack (ackId : Option JVal) (data : Option JVal) : Decoded
  | event (event : String) (data : Option JVal) (ackId : Option JVal) : Decoded
  deriving Repr

/-- The strict comparison `parsed.t === MessageType.ACK` (`=== 1`). -/
def isAckMarker : Option JVal → Bool
  | some (JVal.num n) => n == 1
  | _ => false

/-- `utils.js` `decode(message)` on an already-parsed value: an ack record
when the type marker is the ack enum, an event record when `e` is a string,
and `null` (here `none`) otherwise. The JSON-parse failure branch of the
source (`catch` returning `null`) cannot arise at the JSON-value level. -/
def decode (parsed : JVal) : Option Decoded :=
  if isAckMarker (getField parsed "t") then
    some (Decoded.ack (getField parsed "a") (getField parsed "d"))
  else
    match getField parsed "e" with
    | some (JVal.str e) => some (Decoded.event e (getField parsed "d") (getField parsed "a"))
    | _ => none

/-- C4: decoding the codec's own encoding reproduces the original `event`,
`data` and `ackId` (the `ackId` absent exactly when it was omitted), for
every event string, every JSON value `data`, and every `ackId` that is
absent or a non-empty string. -/
theorem decode_encode_roundtrip (event : String) (data : JVal) (ackId : Option String)
    (h : ackId = none ∨ ∃ a, ackId = some a ∧ a ≠ "") :
    decode (encode event data ackId) =
      some (Decoded.event event (some data) (ackId.map JVal.str)) := by
  rcases h with h | ⟨a, h, ha⟩
  · subst h
    rfl
  · subst h
    simp only [encode, if_neg ha, Option.map]
    rfl

/-- Witness: the round-trip law evaluated at `("ping", 3, "k1")`. -/
theorem decode_encode_roundtrip_witness :
    decode (encode "ping" (JVal.num 3) (some "k1")) =
      some (Decoded.event "ping" (some (JVal.num 3)) (some (JVal.str "k1"))) :=
  decode_encode_roundtrip "ping" (JVal.num 3) (some "k1")
    (Or.inr ⟨"k1", rfl, by decide⟩)

end Utils

/-- Truthiness of an optional string in a JavaScript conditional position
(`if (ackId)`, `ackId ? _ : _`, `if (to && ...)`): false for a missing value
and for the empty string. -/
def strTruthy : Option String → Bool
  | none => false
  | some s => !(s == "")

/-- Wire frames built by `server.js` (which writes long-form JSON directly):
`emit` sends `\x7bevent, data\x7d`, `request` sends `\x7bevent, data, ackId\x7d`,
`reply` sends `\x7btype: 'ack', ackId, data\x7d`. -/
inductive Frame where
  | event (event : String) (data : JVal) : Frame
  | eventReq (event : String) (data : JVal) (ackId : String) : Frame
  | ack (ackId : String) (data : JVal) : Frame
  deriving Repr

namespace Server

/-- An observable step of dispatching one inbound event frame: invoking a
middleware or handler function (identified by a numeric label), sending an
acknowledgment frame, or writing a console log line. -/
inductive Action where
  | invoke (label : Nat) : Action
  | sendAck (ackId : String) (payload : JVal) : Action
  | log (msg : String) : Action
  deriving Repr

/-- Model of one middleware function: when invoked it performs its observable
side effect (identified by `label`) and then either calls its `next`
continuation exactly once or returns without calling it. -/
structure MW where
  label : Nat
  callsNext : Bool
  deriving Repr, DecidableEq

/-- `EmitSocket._runMiddleware(middleware, req, done)`: the continuation
`next` runs `middleware[index++]` while any remain, then calls `done`.
Returns the labels of the middleware actually invoked, in order, together
with whether `done` was reached. -/
def runMiddleware : List MW → List Nat × Bool
  | [] => ([], true)
  | m :: rest =>
      if m.callsNext then
        ((m.label :: (runMiddleware rest).1), (runMiddleware rest).2)
      else ([m.label], false)

/-- A handler-table entry as stored by `EmitApp.on`: route-specific
middleware plus the handler (identified by a label). -/
structure Entry where
  middleware : List MW
  label : Nat
  deriving Repr, DecidableEq

/-- The parts of `EmitApp` state that event dispatch reads: the global
middleware list and the handler table (a `Map` keyed by event string). -/
structure App where
  middleware : List MW
  handlers : List (String × Entry)
  deriving Repr

/-- `app.handlers.get(event)`: first-match lookup (keys are unique). -/
def handlersGet (app : App) (event : String) : Option Entry :=
  match app.handlers.find? (fun p => p.1 == event) with
  | some p => some p.2
  | none => none

/-- The `@any` catch-all step of dispatch: invoked when registered. -/
def anyPart (app : App) : List Action :=
  match handlersGet app "@any" with
  | some ea => [Action.invoke ea.label]
  | none => []

/-- The synthesized no-handler acknowledgment payload
`\x7b error: `No handler for: $\x7bevent\x7d` \x7d`. -/
def noHandlerPayload (event : String) : JVal :=
  JVal.obj [("error", JVal.str ("No handler for: " ++ event))]

/-- The tail of dispatch after the global chain and the `@any` step: look up
the event's entry; when found, run its route middleware and then (if that
chain completed) its handler; when absent, send the no-handler ack if the
frame carried a truthy correlation id, else log unless `@any` is
registered. -/
def routePart (app : App) (event : String) (ackId : Option String) : List Action :=
  match handlersGet app event with
  | some entry =>
      (runMiddleware entry.middleware).1.map Action.invoke ++
        (if (runMiddleware entry.middleware).2 then [Action.invoke entry.label] else [])
  | none =>
      if strTruthy ackId then
        [Action.sendAck (ackId.getD "") (noHandlerPayload event)]
      else if (handlersGet app "@any").isSome then []
      else [Action.log ("No handler for: " ++ event)]

/-- `EmitSocket._handleMessage` on an event frame (`server.js` lines
394-421): run the global middleware chain; only if it completes does the
`done` continuation run, which invokes `@any` (when registered) and then
`routePart`. The returned list is the ordered trace of observable actions. -/
def handleEvent (app : App) (event : String) (ackId : Option String) : List Action :=
  if (runMiddleware app.middleware).2 then
    (runMiddleware app.middleware).1.map Action.invoke ++ anyPart app ++
      routePart app event ackId
  else
    (runMiddleware app.middleware).1.map Action.invoke

theorem runMiddleware_all (l : List MW) (h : ∀ m ∈ l, m.callsNext = true) :
    runMiddleware l = (l.map MW.label, true) := by
  induction l with
  | nil => rfl
  | cons m rest ih =>
      have hm : m.callsNext = true := h m (List.mem_cons_self _ _)
      have ih2 := ih (fun x hx => h x (List.mem_cons_of_mem _ hx))
      simp [runMiddleware, hm, ih2]

theorem runMiddleware_blocked (l : List MW) (h : ∃ m ∈ l, m.callsNext = false) :
    (runMiddleware l).2 = false := by
  induction l with
  | nil => simp at h
  | cons m rest ih =>
      rcases h with ⟨x, hx, hfalse⟩
      rcases List.mem_cons.mp hx with rfl | hx
      · simp [runMiddleware, hfalse]
      · by_cases hm : m.callsNext
        · simp [runMiddleware, hm, ih ⟨x, hx, hfalse⟩]
        · simp [runMiddleware, hm]

theorem runMiddleware_labels_sub (l : List MW) :
    ∀ x ∈ (runMiddleware l).1, x ∈ l.map MW.label := by
  induction l with
  | nil => simp [runMiddleware]
  | cons m rest ih =>
      intro x hx
      by_cases hm : m.callsNext
      · simp only [runMiddleware, hm, if_pos] at hx
        rcases List.mem_cons.mp hx with rfl | hx
        · simp
        · simp [ih x hx]
      · simp only [runMiddleware, hm] at hx
        simp at hx
        simp [hx]

/-- C1: global middleware runs in registration order as a CPS chain. When
every global middleware calls `next` (and the event entry's route middleware
does too), the trace is exactly: all global middleware in order, then the
`@any` handler, then the route middleware, then the event's handler — in
particular `@any` precedes the event handler. When some global middleware
never calls `next`, the trace consists solely of middleware invocations (the
chain's prefix), and no label outside the global middleware — in particular
neither `@any`'s nor the event handler's — is ever invoked. -/
theorem dispatch_middleware_gate (app : App) (event : String) (ackId : Option String)
    (ea e : Entry) (ha : handlersGet app "@any" = some ea)
    (he : handlersGet app event = some e) :
    ((∀ m ∈ app.middleware, m.callsNext = true) ∧ (∀ m ∈ e.middleware, m.callsNext = true) →
      handleEvent app event ackId =
        app.middleware.map (fun m => Action.invoke m.label) ++ [Action.invoke ea.label] ++
          e.middleware.map (fun m => Action.invoke m.label) ++ [Action.invoke e.label]) ∧
    ((∃ m ∈ app.middleware, m.callsNext = false) →
      handleEvent app event ackId = (runMiddleware app.middleware).1.map Action.invoke ∧
      ∀ l, l ∉ app.middleware.map MW.label →
        Action.invoke l ∉ handleEvent app event ackId) := by
  constructor
  · rintro ⟨hg, hr⟩
    rw [handleEvent, runMiddleware_all _ hg, anyPart, ha, routePart, he]
    simp only [runMiddleware_all _ hr]
    simp only [List.map_map, List.append_assoc, List.singleton_append]
    rfl
  · intro hb
    have h2 : (runMiddleware app.middleware).2 = false := runMiddleware_blocked _ hb
    have heq : handleEvent app event ackId =
        (runMiddleware app.middleware).1.map Action.invoke := by
      rw [handleEvent, h2]
      simp
    refine ⟨heq, ?_⟩
    intro l hl hmem
    rw [heq] at hmem
    rcases List.mem_map.mp hmem with ⟨x, hx, hxl⟩
    have : x = l := by injection hxl
    exact hl (this ▸ runMiddleware_labels_sub _ x hx)

/-- A concrete application for the C1 witness: two pass-through global
middleware, an `@any` handler, and an `evt` entry with one route
middleware. -/
def app0 : App :=
  { middleware := [⟨1, true⟩, ⟨2, true⟩],
    handlers := [("@any", ⟨[], 10⟩), ("evt", ⟨[⟨3, true⟩], 20⟩)] }

/-- A concrete application for the C1 witness's halting part: the first
middleware never calls `next`. -/
def app0b : App :=
  { middleware := [⟨1, false⟩, ⟨2, true⟩],
    handlers := [("@any", ⟨[], 10⟩), ("evt", ⟨[], 20⟩)] }

/-- Witness for C1 on concrete applications: with all middleware passing, the
trace is middleware 1, 2, then `@any` (10), route middleware (3), handler
(20); with middleware 1 refusing to call `next`, the trace is just
middleware 1 and the handler label 20 is never invoked. -/
theorem dispatch_middleware_gate_witness :
    handleEvent app0 "evt" none =
      [Action.invoke 1, Action.invoke 2, Action.invoke 10,
       Action.invoke 3, Action.invoke 20] ∧
    (handleEvent app0b "evt" none = [Action.invoke 1] ∧
      Action.invoke 20 ∉ handleEvent app0b "evt" none) := by
  have h1 := dispatch_middleware_gate app0 "evt" none ⟨[], 10⟩ ⟨[⟨3, true⟩], 20⟩ rfl rfl
  have h2 := dispatch_middleware_gate app0b "evt" none ⟨[], 10⟩ ⟨[], 20⟩ rfl rfl
  have hb : ∃ m ∈ app0b.middleware, m.callsNext = false := by decide
  refine ⟨(h1.1 ⟨by decide, by decide⟩).trans rfl, ((h2.2 hb).1).trans rfl, ?_⟩
  exact (h2.2 hb).2 20 (by decide)

/-- C3: when the global chain completes and no handler entry exists for the
event: a frame carrying a (truthy) correlation id gets an acknowledgment
with that same id whose payload signals "no handler for the event"; a frame
without a correlation id produces only a console advisory, and only when no
`@any` catch-all is registered. -/
theorem dispatch_no_handler (app : App) (event : String) (ackId : Option String)
    (he : handlersGet app event = none)
    (hg : ∀ m ∈ app.middleware, m.callsNext = true) :
    (∀ a, ackId = some a → a ≠ "" →
      handleEvent app event ackId =
        app.middleware.map (fun m => Action.invoke m.label) ++ anyPart app ++
          [Action.sendAck a (noHandlerPayload event)]) ∧
    (ackId = none →
      handleEvent app event ackId =
        app.middleware.map (fun m => Action.invoke m.label) ++ anyPart app ++
          (if (handlersGet app "@any").isSome then []
           else [Action.log ("No handler for: " ++ event)])) := by
  constructor
  · rintro a rfl hne
    rw [handleEvent, runMiddleware_all _ hg, routePart, he]
    have ht : strTruthy (some a) = true := by
      simp [strTruthy, hne]
    rw [ht]
    simp
  · rintro rfl
    rw [handleEvent, runMiddleware_all _ hg, routePart, he]
    simp [strTruthy]

/-- A concrete application for the C3 witness: one pass-through middleware
and an empty handler table. -/
def app1 : App := { middleware := [⟨1, true⟩], handlers := [] }

/-- Witness for C3: on `app1`, an unhandled frame with correlation id "a1"
yields the middleware invocation followed by the no-handler ack carrying
"a1"; the same frame without a correlation id yields the advisory log. -/
theorem dispatch_no_handler_witness :
    handleEvent app1 "nope" (some "a1") =
      [Action.invoke 1, Action.sendAck "a1" (noHandlerPayload "nope")] ∧
    handleEvent app1 "nope" none =
      [Action.invoke 1, Action.log "No handler for: nope"] := by
  have hs := dispatch_no_handler app1 "nope" (some "a1") rfl (by decide)
  have hn := dispatch_no_handler app1 "nope" none rfl (by decide)
  exact ⟨(hs.1 "a1" rfl (by decide)).trans rfl, (hn.2 rfl).trans rfl⟩

/-- State touched by a Request's `reply` closure: the `replyCalled` flag
(written by the wrapper installed when the frame carried a truthy `ackId`,
and never read anywhere in the source) plus the frames sent so far over the
connection. -/
structure ReplyState where
  replyCalled : Bool
  sent : List Frame
  deriving Repr

/-- `req.reply(res)` as built in `_handleMessage`: for a truthy originating
`ackId` it is the wrapped closure that sets `replyCalled` and sends
`\x7btype: 'ack', ackId, data: res\x7d`; for a falsy `ackId` it is `() => \x7b\x7d`. -/
def reply (ackId : Option String) (st : ReplyState) (res : JVal) : ReplyState :=
  if strTruthy ackId then
    { replyCalled := true, sent := st.sent ++ [Frame.ack (ackId.getD "") res] }
  else st

/-- Counterexample to C5 as stated: a handler that invokes `reply` twice on
one Request (originating frame's correlation id "k1") sends two
acknowledgment frames for that single correlation id — the code never
consults `replyCalled`, so at-most-one-ack-per-id is not enforced. -/
theorem reply_double_ack :
    (reply (some "k1") (reply (some "k1") ⟨false, []⟩ (JVal.num 1)) (JVal.num 2)).sent =
      [Frame.ack "k1" (JVal.num 1), Frame.ack "k1" (JVal.num 2)] ∧
    ¬ ((reply (some "k1") (reply (some "k1") ⟨false, []⟩ (JVal.num 1))
        (JVal.num 2)).sent.length ≤ 1) := by
  constructor
  · rfl
  · decide

/-- C5 amended: every acknowledgment frame that `reply` sends carries the
correlation id of the event frame it answers, each invocation appends
exactly one such frame (so a handler calling `reply` n times sends n
acknowledgments — the framework does not enforce at-most-once), and `reply`
on a Request whose originating frame carried no correlation id is a no-op. -/
theorem reply_frames (st : ReplyState) (res : JVal) :
    (∀ a : String, a ≠ "" →
      (reply (some a) st res).sent = st.sent ++ [Frame.ack a res]) ∧
    reply none st res = st := by
  constructor
  · intro a ha
    simp [reply, strTruthy, ha]
  · rfl

/-- Witness for C5's amended statement: one `reply` on correlation id "k9"
appends exactly the matching ack frame, and `reply` without a correlation id
leaves the state unchanged. -/
theorem reply_frames_witness :
    (reply (some "k9") ⟨false, []⟩ (JVal.str "ok")).sent =
      [Frame.ack "k9" (JVal.str "ok")] ∧
    reply none ⟨false, []⟩ (JVal.str "ok") = ⟨false, []⟩ :=
  ⟨(reply_frames ⟨false, []⟩ (JVal.str "ok")).1 "k9" (by decide),
    (reply_frames ⟨false, []⟩ (JVal.str "ok")).2⟩

end Server

namespace Pending

/-- How a pending request's promise can settle. -/
inductive Outcome where
  | resolved (data : JVal) : Outcome
  | timedOut : Outcome
  deriving Repr

/-- Lifecycle state of one outbound request issued by `EmitSocket.request`
(`pendingRequests`) or `EmitClient.request` (`_pendingAcks`): whether the
correlation entry is still in the owning map, whether the timeout timer is
still scheduled (i.e. not yet cleared and not yet fired), and the promise's
settlement. -/
structure PendingState where
  entryPresent : Bool
  timerActive : Bool
  outcome : Option Outcome
  deriving Repr

/-- Promise settlement: the first `resolve`/`reject` wins, later ones are
no-ops. -/
def settle (st : Option Outcome) (o : Outcome) : Option Outcome :=
  match st with
  | some x => some x
  | none => some o

/-- State right after `request` ran: the entry is stored in the map and the
timer is scheduled. -/
def afterRequest : PendingState := ⟨true, true, none⟩

/-- The two events that can befall a pending request. -/
inductive Ev where
  | ackArrives (data : JVal) : Ev
  | timerFires : Ev

/-- One event. `ackArrives` is the ack branch of `_handleMessage` /
`onmessage`: only if the map still holds the entry does it clear the timer,
resolve, and delete the entry. `timerFires` is the `setTimeout` callback: it
runs only while the timer is still scheduled (a cleared timer never fires),
and then deletes the entry and rejects with the timeout fault. -/
def step (st : PendingState) : Ev → PendingState
  | Ev.ackArrives data =>
      if st.entryPresent then
        ⟨false, false, settle st.outcome (Outcome.resolved data)⟩
      else st
  | Ev.timerFires =>
      if st.timerActive then
        ⟨false, false, settle st.outcome Outcome.timedOut⟩
      else st

/-- The request's history: all events hitting this correlation id, in order,
starting from the state `request` left behind. -/
def run (evs : List Ev) : PendingState := evs.foldl step afterRequest

/-- The outcome the first event produces. -/
def firstOutcome : Ev → Outcome
  | Ev.ackArrives d => Outcome.resolved d
  | Ev.timerFires => Outcome.timedOut

/-- `server.js`: `const timeout = options.timeout || 10000`. -/
def serverTimeout (opt : Option Nat) : Nat :=
  match opt with
  | some t => if t = 0 then 10000 else t
  | none => 10000

/-- `client.js` constructor: `ackTimeout: 10000` overridden by the caller's
spread options. -/
def clientAckTimeout (optionsAckTimeout : Option Nat) : Nat :=
  optionsAckTimeout.getD 10000

/-- `client.js` `request`: `const ackTimeout = timeout ?? this.options.ackTimeout`. -/
def clientTimeout (timeout : Option Nat) (optionsAckTimeout : Option Nat) : Nat :=
  match timeout with
  | some t => t
  | none => clientAckTimeout optionsAckTimeout

theorem step_frozen (st : PendingState) (h1 : st.entryPresent = false)
    (h2 : st.timerActive = false) : ∀ e, step st e = st := by
  intro e
  cases e <;> simp [step, h1, h2]

theorem run_frozen (evs : List Ev) (st : PendingState)
    (h1 : st.entryPresent = false) (h2 : st.timerActive = false) :
    evs.foldl step st = st := by
  induction evs with
  | nil => rfl
  | cons e rest ih => simp [List.foldl_cons, step_frozen st h1 h2 e, ih]

/-- C2: for every request actually created (entry stored, timer armed),
whatever nonempty sequence of ack-arrival / timer-fire events follows,
exactly the first event settles the promise — an ack resolves it with the
ack's payload, the timer rejects it as a timeout — the settling event
removes the pending entry (and disarms the timer), and every later event
finds no entry and leaves the state untouched. The default timeout is
10,000 ms on both the server socket and the client. -/
theorem request_exactly_one (e : Ev) (evs : List Ev) :
    run (e :: evs) = step afterRequest e ∧
    (step afterRequest e).outcome = some (firstOutcome e) ∧
    (step afterRequest e).entryPresent = false ∧
    (step afterRequest e).timerActive = false ∧
    serverTimeout none = 10000 ∧ clientTimeout none none = 10000 := by
  have hstep : (step afterRequest e).entryPresent = false ∧
      (step afterRequest e).timerActive = false ∧
      (step afterRequest e).outcome = some (firstOutcome e) := by
    cases e <;> simp [step, afterRequest, settle, firstOutcome]
  refine ⟨?_, hstep.2.2, hstep.1, hstep.2.1, rfl, rfl⟩
  show (e :: evs).foldl step afterRequest = step afterRequest e
  rw [List.foldl_cons]
  exact run_frozen evs _ hstep.1 hstep.2.1

end Pending

namespace Transport

/-- Connection state of a server-accepted WebSocket: such sockets are handed
to `EmitApp._handleConnection` already open, and only ever move to closing
or closed (never the client-side connecting state). -/
inductive ConnState where
  | opened : ConnState
  | closing : ConnState
  | closed : ConnState
  deriving Repr, DecidableEq

/-- Models the external `ws` library's `WebSocket#send` as `server.js` calls
it (no callback argument): when the socket is open the frame goes onto the
wire; otherwise `sendAfterClose` runs, which surfaces an error only through
the (absent) callback, so nothing is sent and no exception is raised —
hence the result is always `ok`. (`send` throws only in the client-side
connecting state, which a server-accepted socket is never in.) -/
def wsSend (rs : ConnState) (wire : List Frame) (f : Frame) :
    Except String (List Frame) :=
  Except.ok (if rs = ConnState.opened then wire ++ [f] else wire)

/-- `EmitSocket.emit(event, data)` (`server.js` lines 424-427): serializes
`\x7bevent, data\x7d` and hands it to `ws.send` unconditionally — the emit body
itself contains no connection-state check; the not-open no-op comes from
`wsSend`. -/
def emit (rs : ConnState) (wire : List Frame) (event : String) (data : JVal) :
    Except String (List Frame) :=
  wsSend rs wire (Frame.event event data)

/-- C7: a server-side `emit` on a connection that is not open leaves the
wire untouched (a no-op), and `emit` never throws in any connection state
(its result is always `ok`). -/
theorem emit_not_open_noop (rs : ConnState) (wire : List Frame)
    (event : String) (data : JVal) :
    (rs ≠ ConnState.opened → emit rs wire event data = Except.ok wire) ∧
    ∃ w, emit rs wire event data = Except.ok w := by
  constructor
  · intro h
    simp [emit, wsSend, h]
  · exact ⟨_, rfl⟩

/-- Witness for C7: emitting on a closed connection sends nothing and
returns ok. -/
theorem emit_not_open_noop_witness :
    emit ConnState.closed [] "x" JVal.null = Except.ok [] :=
  (emit_not_open_noop ConnState.closed [] "x" JVal.null).1 (by decide)

end Transport

namespace Client

/-- `EmitClient` options after the constructor's defaults-then-spread
(`client.js` lines 17-24). -/
structure Options where
  autoReconnect : Bool
  reconnectInterval : Nat
  maxReconnectAttempts : Nat
  ackTimeout : Nat
  deriving Repr, DecidableEq

/-- The caller-supplied options object; an absent field means the caller did
not provide it, so the constructor default survives the spread. -/
structure OptionsArg where
  autoReconnect : Option Bool
  reconnectInterval : Option Nat
  maxReconnectAttempts : Option Nat
  ackTimeout : Option Nat
  deriving Repr, DecidableEq

/-- `this.options = \x7b autoReconnect: true, reconnectInterval: 1000,
maxReconnectAttempts: 10, ackTimeout: 10000, ...options \x7d`. -/
def mkOptions (o : OptionsArg) : Options :=
  { autoReconnect := o.autoReconnect.getD true,
    reconnectInterval := o.reconnectInterval.getD 1000,
    maxReconnectAttempts := o.maxReconnectAttempts.getD 10,
    ackTimeout := o.ackTimeout.getD 10000 }

/-- A constructor call with no reconnection options at all. -/
def emptyArg : OptionsArg := ⟨none, none, none, none⟩

/-- `EmitClient._scheduleReconnect` (lines 129-145): returns without
scheduling when `autoReconnect` is false or the attempt cap is reached;
otherwise it increments the counter and schedules the reconnect timer.
Result: whether a reconnect attempt was scheduled. -/
def scheduleReconnect (opts : Options) (attempts : Nat) : Bool :=
  if !opts.autoReconnect then false
  else if 0 < opts.maxReconnectAttempts ∧ opts.maxReconnectAttempts ≤ attempts then false
  else true

/-- `ws.onclose` (lines 107-115): `_scheduleReconnect` runs iff the close was
not intentional. Result: whether a reconnect attempt was scheduled. -/
def onCloseSchedules (opts : Options) (intentionalClose : Bool) (attempts : Nat) : Bool :=
  if intentionalClose then false else scheduleReconnect opts attempts

/-- Counterexample to C8 as stated: a client constructed with no options has
`autoReconnect = true` (the default is opt-out, not opt-in), and after an
unintentional transport close with a fresh attempt counter a reconnect
attempt IS scheduled. -/
theorem autoReconnect_default_enabled :
    (mkOptions emptyArg).autoReconnect = true ∧
    onCloseSchedules (mkOptions emptyArg) false 0 = true := by
  constructor <;> rfl

/-- C8 amended: `autoReconnect` defaults to enabled, so a client constructed
without explicit reconnection options schedules a reconnect attempt after an
unintentional close (while under the attempt cap); reconnection is disabled
only when the caller passes `autoReconnect: false`, in which case no attempt
is ever scheduled. -/
theorem autoReconnect_default (o : OptionsArg) (attempts : Nat) :
    (mkOptions emptyArg).autoReconnect = true ∧
    (attempts < (mkOptions emptyArg).maxReconnectAttempts →
      onCloseSchedules (mkOptions emptyArg) false attempts = true) ∧
    (o.autoReconnect = some false →
      onCloseSchedules (mkOptions o) false attempts = false) := by
  refine ⟨rfl, ?_, ?_⟩
  · intro h
    have h10 : (mkOptions emptyArg).maxReconnectAttempts = 10 := rfl
    rw [h10] at h
    simp [onCloseSchedules, scheduleReconnect, mkOptions, emptyArg]
    omega
  · intro h
    simp [onCloseSchedules, scheduleReconnect, mkOptions, h]

/-- Witness for C8's amended statement: with no options and zero prior
attempts a reconnect is scheduled; with `autoReconnect: false` it is not. -/
theorem autoReconnect_default_witness :
    onCloseSchedules (mkOptions emptyArg) false 0 = true ∧
    onCloseSchedules (mkOptions ⟨some false, none, none, none⟩) false 0 = false :=
  ⟨(autoReconnect_default emptyArg 0).2.1 (by decide),
    (autoReconnect_default ⟨some false, none, none, none⟩ 0).2.2 rfl⟩

end Client

/-- JavaScript `s.startsWith(c)` for the single-character prefixes `'#'` and
`'*'` used throughout the source, defined on the string's character list so
that proofs can evaluate it on concrete inputs. -/
def startsWithChar (s : String) (c : Char) : Bool :=
  match s.data with
  | [] => false
  | c2 :: _ => c2 == c

namespace Broadcast

/-- The application state broadcast addressing reads: the connected-socket
set (by id), the room index, and each socket's own tag set. -/
structure BState where
  sockets : List String
  rooms : List (String × List String)
  tags : List (String × List String)
  deriving Repr

/-- `Socket.tag` / `hasTag` key normalization: prepend `*` when absent. -/
def normTag (name : String) : String :=
  if startsWithChar name '*' then name else "*" ++ name

/-- `Socket.join` / `leave` key normalization: prepend `#` when absent. -/
def normRoom (room : String) : String :=
  if startsWithChar room '#' then room else "#" ++ room

/-- A socket's tag set. -/
def tagsOf (st : BState) (sid : String) : List String :=
  match st.tags.find? (fun p => p.1 == sid) with
  | some p => p.2
  | none => []

/-- `socket.hasTag(name)`: normalize, then membership in the socket's own
tag set. -/
def hasTag (st : BState) (sid : String) (name : String) : Bool :=
  (tagsOf st sid).contains (normTag name)

/-- `this.rooms.get(to) || new Set()`. -/
def roomsGet (st : BState) (room : String) : List String :=
  match st.rooms.find? (fun p => p.1 == room) with
  | some p => p.2
  | none => []

/-- Addressing resolution shared verbatim by `EmitApp.broadcast` (lines
75-94) and `req.broadcast` (lines 340-362): a truthy `to` starting with `#`
targets the room's member set, a truthy `to` starting with `*` targets the
sockets carrying the tag, anything else targets every connected socket.
Note: `to` is used exactly as written — no `#`/`*` normalization. -/
def broadcastTargets (st : BState) (toOpt : Option String) : List String :=
  if strTruthy toOpt && startsWithChar (toOpt.getD "") '#' then
    roomsGet st (toOpt.getD "")
  else if strTruthy toOpt && startsWithChar (toOpt.getD "") '*' then
    st.sockets.filter (fun s => hasTag st s (toOpt.getD ""))
  else st.sockets

/-- `req.broadcast`'s delivery: the resolved targets minus the Request's own
socket unless `includeSelf`. -/
def reqBroadcastDelivered (st : BState) (selfId : String) (includeSelf : Bool)
    (toOpt : Option String) : List String :=
  (broadcastTargets st toOpt).filter (fun s => includeSelf || s != selfId)

/-- C10: a broadcast whose `to` is a non-empty string starting with neither
`#` nor `*` (e.g. a room name written without its `#`) targets every
connected socket, exactly as if `to` were absent, on both the
Application-level and the Request-level path — broadcast applies no
room/tag-key normalization to `to`, unlike `join`/`tag`, which prepend the
prefix (`normRoom`/`normTag`). -/
theorem broadcast_unprefixed_to_hits_all (st : BState) (t selfId : String)
    (includeSelf : Bool) (h1 : t ≠ "") (h2 : startsWithChar t '#' = false)
    (h3 : startsWithChar t '*' = false) :
    broadcastTargets st (some t) = st.sockets ∧
    broadcastTargets st (some t) = broadcastTargets st none ∧
    reqBroadcastDelivered st selfId includeSelf (some t) =
      reqBroadcastDelivered st selfId includeSelf none ∧
    normRoom t = "#" ++ t ∧ normTag t = "*" ++ t := by
  have hall : broadcastTargets st (some t) = st.sockets := by
    simp [broadcastTargets, strTruthy, h1, h2, h3]
  have hnone : broadcastTargets st none = st.sockets := by
    simp [broadcastTargets, strTruthy]
  refine ⟨hall, hall.trans hnone.symm, ?_, ?_, ?_⟩
  · simp [reqBroadcastDelivered, hall, hnone]
  · simp [normRoom, h2]
  · simp [normTag, h3]

/-- A concrete state for the C10 witness: three sockets, a `#lobby` room
holding only `s1`. -/
def bst0 : BState :=
  { sockets := ["s1", "s2", "s3"], rooms := [("#lobby", ["s1"])], tags := [] }

/-- Witness for C10: broadcasting with `to = "lobby"` (the room name without
its `#`) reaches all three sockets — not just the room member — exactly as
with `to` absent. -/
theorem broadcast_unprefixed_to_hits_all_witness :
    broadcastTargets bst0 (some "lobby") = ["s1", "s2", "s3"] ∧
    reqBroadcastDelivered bst0 "s1" false (some "lobby") = ["s2", "s3"] := by
  have h := broadcast_unprefixed_to_hits_all bst0 "lobby" "s1" false
    (by decide) (by decide) (by decide)
  exact ⟨h.1.trans rfl, (h.2.2.1).trans rfl⟩

end Broadcast

namespace Rooms

/-- `Set.add` on the list model of a JavaScript `Set`: append if absent. -/
def setAdd (l : List String) (x : String) : List String :=
  if l.contains x then l else l ++ [x]

/-- `Set.delete`: remove the element. -/
def setDel (l : List String) (x : String) : List String :=
  l.filter (fun y => y != x)

/-- `Map.get`: first-match lookup. -/
def mapGet (m : List (String × List String)) (k : String) : Option (List String) :=
  match m with
  | [] => none
  | p :: rest => if p.1 = k then some p.2 else mapGet rest k

/-- `Map.get` with the empty set as default. -/
def mapGetD (m : List (String × List String)) (k : String) : List String :=
  (mapGet m k).getD []

/-- `Map.set`: replace the entry for the key, or append a fresh one. -/
def mapSet (m : List (String × List String)) (k : String) (v : List String) :
    List (String × List String) :=
  match m with
  | [] => [(k, v)]
  | p :: rest => if p.1 = k then (k, v) :: rest else p :: mapSet rest k v

/-- `Map.delete`: drop the key's entry. -/
def mapDelete (m : List (String × List String)) (k : String) :
    List (String × List String) :=
  match m with
  | [] => []
  | p :: rest => if p.1 = k then mapDelete rest k else p :: mapDelete rest k

/-- `Socket.join` / `leave` room-key normalization: prepend `#` if absent. -/
def normRoom (room : String) : String :=
  if startsWithChar room '#' then room else "#" ++ room

/-- `EmitApp._joinRoom(room, socket)`: create the room's set on first join,
then add the socket. -/
def joinRoomApp (rooms : List (String × List String)) (room sid : String) :
    List (String × List String) :=
  mapSet rooms room (setAdd (mapGetD rooms room) sid)

/-- `EmitApp._leaveRoom(room, socket)` (lines 115-123): if the room's set
exists, delete the socket from it, and delete the room's key entirely when
the set became empty. -/
def leaveRoomApp (rooms : List (String × List String)) (room sid : String) :
    List (String × List String) :=
  match mapGet rooms room with
  | none => rooms
  | some mem =>
      if setDel mem sid = [] then mapDelete rooms room
      else mapSet rooms room (setDel mem sid)

/-- The state of an `EmitApp` plus its sockets' own room sets: the room
index, the live-socket index (`sockets` / `socketMap` domain), and each
socket's `socket.rooms`. -/
structure AppState where
  rooms : List (String × List String)
  socketIds : List String
  memberRooms : List (String × List String)
  deriving Repr

/-- The operations that touch the room and socket indices. -/
inductive Op where
  | connect (sid : String) : Op
  | join (sid room : String) : Op
  | leave (sid room : String) : Op
  | close (sid : String) : Op

/-- One operation. `connect` is `_handleConnection` adding the socket to the
index. `join`/`leave` are `Socket.join`/`leave`: normalize the key, mutate
the socket's own set and the Application's index symmetrically. `close` is
the `ws close` handler: `_leaveAllRooms` (one `_leaveRoom` per room in the
socket's own set, which is not itself cleared), then removal from the
socket index — the `@disconnect` handler is invoked only after all of this,
observing the returned state. -/
def applyOp (st : AppState) : Op → AppState
  | Op.connect sid => { st with socketIds := setAdd st.socketIds sid }
  | Op.join sid room =>
      { st with
          memberRooms := mapSet st.memberRooms sid
            (setAdd (mapGetD st.memberRooms sid) (normRoom room)),
          rooms := joinRoomApp st.rooms (normRoom room) sid }
  | Op.leave sid room =>
      { st with
          memberRooms := mapSet st.memberRooms sid
            (setDel (mapGetD st.memberRooms sid) (normRoom room)),
          rooms := leaveRoomApp st.rooms (normRoom room) sid }
  | Op.close sid =>
      { st with
          rooms := (mapGetD st.memberRooms sid).foldl
            (fun acc r => leaveRoomApp acc r sid) st.rooms,
          socketIds := setDel st.socketIds sid }

/-- A fresh application. -/
def initState : AppState := ⟨[], [], []⟩

/-- Replay a history of operations against a fresh application. -/
def runOps (ops : List Op) : AppState := ops.foldl applyOp initState

/-- The application state the `@disconnect` handler observes: the close
handler has already cascaded the room leaves and removed the socket from
the index before invoking it. -/
def stateAtDisconnect (st : AppState) (sid : String) : AppState :=
  applyOp st (Op.close sid)

/-- No room key maps to an empty member set. -/
def roomsNonempty (st : AppState) : Prop := ∀ p ∈ st.rooms, p.2 ≠ []

theorem setAdd_ne_nil (l : List String) (x : String) : setAdd l x ≠ [] := by
  rw [setAdd]
  by_cases h : l.contains x = true
  · rw [if_pos h]
    intro hnil
    subst hnil
    simp at h
  · rw [if_neg h]
    simp

theorem mem_mapSet (m : List (String × List String)) (k : String)
    (v : List String) (p : String × List String) (h : p ∈ mapSet m k v) :
    p = (k, v) ∨ p ∈ m := by
  induction m with
  | nil =>
      simp [mapSet] at h
      simp [h]
  | cons q rest ih =>
      by_cases hq : q.1 = k
      · simp only [mapSet, if_pos hq] at h
        rcases List.mem_cons.mp h with h | h
        · exact Or.inl h
        · exact Or.inr (List.mem_cons_of_mem _ h)
      · simp only [mapSet, if_neg hq] at h
        rcases List.mem_cons.mp h with h | h
        · exact Or.inr (h ▸ List.mem_cons_self _ _)
        · rcases ih h with h | h
          · exact Or.inl h
          · exact Or.inr (List.mem_cons_of_mem _ h)

theorem mem_mapDelete (m : List (String × List String)) (k : String)
    (p : String × List String) (h : p ∈ mapDelete m k) : p ∈ m := by
  induction m with
  | nil => simpa [mapDelete] using h
  | cons q rest ih =>
      by_cases hq : q.1 = k
      · simp only [mapDelete, if_pos hq] at h
        exact List.mem_cons_of_mem _ (ih h)
      · simp only [mapDelete, if_neg hq] at h
        rcases List.mem_cons.mp h with h | h
        · exact h ▸ List.mem_cons_self _ _
        · exact List.mem_cons_of_mem _ (ih h)

theorem joinRoomApp_nonempty (rooms : List (String × List String))
    (room sid : String) (h : ∀ p ∈ rooms, p.2 ≠ [])
    (p : String × List String) (hp : p ∈ joinRoomApp rooms room sid) :
    p.2 ≠ [] := by
  rcases mem_mapSet _ _ _ _ hp with hp | hp
  · rw [hp]
    exact setAdd_ne_nil _ _
  · exact h p hp

theorem leaveRoomApp_nonempty (rooms : List (String × List String))
    (room sid : String) (h : ∀ p ∈ rooms, p.2 ≠ [])
    (p : String × List String) (hp : p ∈ leaveRoomApp rooms room sid) :
    p.2 ≠ [] := by
  cases hmem : mapGet rooms room with
  | none =>
      simp only [leaveRoomApp, hmem] at hp
      exact h p hp
  | some mem =>
      simp only [leaveRoomApp, hmem] at hp
      by_cases hnil : setDel mem sid = []
      · rw [if_pos hnil] at hp
        exact h p (mem_mapDelete _ _ _ hp)
      · rw [if_neg hnil] at hp
        rcases mem_mapSet _ _ _ _ hp with hp | hp
        · rw [hp]
          exact hnil
        · exact h p hp

theorem leaveFold_nonempty (rl : List String) (rooms : List (String × List String))
    (sid : String) (h : ∀ p ∈ rooms, p.2 ≠ []) :
    ∀ p ∈ rl.foldl (fun acc r => leaveRoomApp acc r sid) rooms, p.2 ≠ [] := by
  induction rl generalizing rooms with
  | nil => exact h
  | cons r rest ih =>
      intro p hp
      exact ih (leaveRoomApp rooms r sid)
        (fun q hq => leaveRoomApp_nonempty rooms r sid h q hq) p hp

theorem applyOp_nonempty (st : AppState) (op : Op) (h : roomsNonempty st) :
    roomsNonempty (applyOp st op) := by
  cases op with
  | connect sid => exact h
  | join sid room =>
      intro p hp
      exact joinRoomApp_nonempty st.rooms _ sid h p hp
  | leave sid room =>
      intro p hp
      exact leaveRoomApp_nonempty st.rooms _ sid h p hp
  | close sid =>
      intro p hp
      exact leaveFold_nonempty _ st.rooms sid h p hp

theorem foldl_nonempty (ops : List Op) (st : AppState) (h : roomsNonempty st) :
    roomsNonempty (ops.foldl applyOp st) := by
  induction ops generalizing st with
  | nil => exact h
  | cons op rest ih => exact ih (applyOp st op) (applyOp_nonempty st op h)

theorem mapGet_mapSet_self (m : List (String × List String)) (k : String)
    (v : List String) : mapGet (mapSet m k v) k = some v := by
  induction m with
  | nil => simp [mapSet, mapGet]
  | cons p rest ih =>
      by_cases hp : p.1 = k
      · simp [mapSet, hp, mapGet]
      · simp [mapSet, hp, mapGet, ih]

theorem mapGet_mapSet_other (m : List (String × List String)) (k k2 : String)
    (v : List String) (h : k2 ≠ k) :
    mapGet (mapSet m k v) k2 = mapGet m k2 := by
  induction m with
  | nil => simp [mapSet, mapGet, Ne.symm h]
  | cons p rest ih =>
      by_cases hp : p.1 = k
      · have h1 : ¬(k = k2) := fun hc => h hc.symm
        have h2 : ¬(p.1 = k2) := by
          rw [hp]
          exact h1
        simp only [mapSet, if_pos hp, mapGet]
        rw [if_neg h1, if_neg h2]
      · simp only [mapSet, if_neg hp, mapGet]
        by_cases hp2 : p.1 = k2
        · rw [if_pos hp2, if_pos hp2]
        · rw [if_neg hp2, if_neg hp2]
          exact ih

theorem mapGet_mapDelete_self (m : List (String × List String)) (k : String) :
    mapGet (mapDelete m k) k = none := by
  induction m with
  | nil => rfl
  | cons p rest ih =>
      by_cases hp : p.1 = k
      · simp only [mapDelete, if_pos hp]
        exact ih
      · simp only [mapDelete, if_neg hp, mapGet]
        exact ih

theorem mapGet_mapDelete_other (m : List (String × List String)) (k k2 : String)
    (h : k2 ≠ k) : mapGet (mapDelete m k) k2 = mapGet m k2 := by
  induction m with
  | nil => rfl
  | cons p rest ih =>
      by_cases hp : p.1 = k
      · have h2 : ¬(p.1 = k2) := by
          rw [hp]
          exact Ne.symm h
        simp only [mapDelete, if_pos hp, mapGet]
        rw [ih, if_neg h2]
      · simp only [mapDelete, if_neg hp, mapGet]
        by_cases hp2 : p.1 = k2
        · rw [if_pos hp2, if_pos hp2]
        · rw [if_neg hp2, if_neg hp2]
          exact ih

theorem not_mem_setDel (l : List String) (x : String) : x ∉ setDel l x := by
  intro h
  have := List.of_mem_filter h
  simp at this

theorem leaveRoomApp_not_mem (rooms : List (String × List String))
    (r2 r sid : String) (h : r2 = r ∨ sid ∉ mapGetD rooms r) :
    sid ∉ mapGetD (leaveRoomApp rooms r2 sid) r := by
  cases hmem : mapGet rooms r2 with
  | none =>
      simp only [leaveRoomApp, hmem]
      rcases h with rfl | h
      · simp [mapGetD, hmem]
      · exact h
  | some mem =>
      simp only [leaveRoomApp, hmem]
      by_cases hnil : setDel mem sid = []
      · rw [if_pos hnil]
        by_cases he : r = r2
        · subst he
          simp [mapGetD, mapGet_mapDelete_self]
        · simp only [mapGetD, mapGet_mapDelete_other rooms r2 r he]
          rcases h with rfl | h
          · exact absurd rfl (fun hc => he hc.symm)
          · exact h
      · rw [if_neg hnil]
        by_cases he : r = r2
        · subst he
          simp only [mapGetD, mapGet_mapSet_self, Option.getD_some]
          exact not_mem_setDel mem sid
        · simp only [mapGetD, mapGet_mapSet_other rooms r2 r _ he]
          rcases h with rfl | h
          · exact absurd rfl (fun hc => he hc.symm)
          · exact h

theorem leaveFold_not_mem (rl : List String) (rooms : List (String × List String))
    (sid r : String) (h : r ∈ rl ∨ sid ∉ mapGetD rooms r) :
    sid ∉ mapGetD (rl.foldl (fun acc r2 => leaveRoomApp acc r2 sid) rooms) r := by
  induction rl generalizing rooms with
  | nil =>
      rcases h with h | h
      · simp at h
      · exact h
  | cons r0 rest ih =>
      rw [List.foldl_cons]
      rcases h with h | h
      · rcases List.mem_cons.mp h with rfl | h
        · exact ih (leaveRoomApp rooms r sid)
            (Or.inr (leaveRoomApp_not_mem rooms r r sid (Or.inl rfl)))
        · exact ih (leaveRoomApp rooms r0 sid) (Or.inl h)
      · exact ih (leaveRoomApp rooms r0 sid)
          (Or.inr (leaveRoomApp_not_mem rooms r0 r sid (Or.inr h)))

/-- C6: (a) after replaying any history of connect/join/leave/close
operations against a fresh application, every room key present in the index
holds at least one member (no empty room persists); (b) the state the
`@disconnect` handler observes on transport close has the closing socket
already removed from the socket index and out of every room in the socket's
own recorded room set (the leaves cascade the room-deletion rule of
`_leaveRoom`). -/
theorem rooms_never_empty (ops : List Op) (st : AppState) (sid : String) :
    roomsNonempty (runOps ops) ∧
    sid ∉ (stateAtDisconnect st sid).socketIds ∧
    (∀ r ∈ mapGetD st.memberRooms sid,
      sid ∉ mapGetD (stateAtDisconnect st sid).rooms r) := by
  refine ⟨?_, ?_, ?_⟩
  · refine foldl_nonempty ops initState ?_
    intro p hp
    simp [initState] at hp
  · exact not_mem_setDel _ _
  · intro r hr
    exact leaveFold_not_mem _ st.rooms sid r (Or.inl hr)

/-- A concrete history for the C6 witness: two sockets join `#lobby`, one
leaves, the other's transport closes. -/
def demoOps : List Op :=
  [Op.connect "s1", Op.connect "s2", Op.join "s1" "lobby", Op.join "s2" "#lobby",
   Op.leave "s1" "lobby", Op.close "s2"]

/-- A concrete pre-close state for the C6 witness. -/
def demoSt : AppState :=
  { rooms := [("#lobby", ["s2"])], socketIds := ["s2"],
    memberRooms := [("s2", ["#lobby"])] }

/-- Witness for C6: the replayed history leaves no empty room (indeed the
room index is empty once its last member closed), and at `@disconnect` time
socket `s2` is out of the index and out of `#lobby`. -/
theorem rooms_never_empty_witness :
    roomsNonempty (runOps demoOps) ∧
    "s2" ∉ (stateAtDisconnect demoSt "s2").socketIds ∧
    "s2" ∉ mapGetD (stateAtDisconnect demoSt "s2").rooms "#lobby" ∧
    (runOps demoOps).rooms = [] := by
  have h := rooms_never_empty demoOps demoSt "s2"
  refine ⟨h.1, h.2.1, h.2.2 "#lobby" (by decide), by decide⟩

end Rooms

namespace RedisAdapter

/-- JavaScript identifier resolution inside a function body: the defined
bindings in scope, looked up by name; an unresolvable identifier raises
`ReferenceError: <name> is not defined`. -/
def lookupVar (scope : List (String × String)) (name : String) :
    Except String String :=
  match scope.find? (fun p => p.1 == name) with
  | some p => Except.ok p.2
  | none => Except.error ("ReferenceError: " ++ name ++ " is not defined")

/-- A value of the shared `<prefix>:users` hash: the JSON-stringified
`\x7bsocketId, server: instanceId, onlineAt: Date.now()\x7d`. -/
structure UserEntry where
  socketId : String
  server : String
  onlineAt : Nat
  deriving Repr, DecidableEq

/-- `redis.hset(users, key, v)` on the model of the users hash. -/
def hashSet (store : List (String × UserEntry)) (k : String) (v : UserEntry) :
    List (String × UserEntry) :=
  match store with
  | [] => [(k, v)]
  | p :: rest => if p.1 = k then (k, v) :: rest else p :: hashSet rest k v

/-- `redis.hdel(users, key)`. -/
def hashDel (store : List (String × UserEntry)) (k : String) :
    List (String × UserEntry) :=
  match store with
  | [] => []
  | p :: rest => if p.1 = k then hashDel rest k else p :: hashDel rest k

/-- `redis.hexists(users, key)`. -/
def hashExists (store : List (String × UserEntry)) (k : String) : Bool :=
  match store with
  | [] => false
  | p :: rest => if p.1 = k then true else hashExists rest k

/-- `app.setUserOnline(userId, socketId)` (adapter plugin, lines 203-209):
the body writes `hset(users, odId, \x7bsocketId, server, onlineAt\x7d)` — but the
identifier written there is `odId`, while the bindings in scope are `userId`
and `socketId`, so evaluating the key expression raises a `ReferenceError`
and the store is never touched (the async function returns a rejected
promise). -/
def setUserOnline (userId socketId instanceId : String) (now : Nat)
    (store : List (String × UserEntry)) :
    Except String (List (String × UserEntry)) :=
  match lookupVar [("userId", userId), ("socketId", socketId)] "odId" with
  | Except.error e => Except.error e
  | Except.ok key => Except.ok (hashSet store key ⟨socketId, instanceId, now⟩)

/-- `app.setUserOffline(userId)` (lines 212-214): the body is
`hdel(users, odId)` with only `userId` in scope — same `ReferenceError`. -/
def setUserOffline (userId : String) (store : List (String × UserEntry)) :
    Except String (List (String × UserEntry)) :=
  match lookupVar [("userId", userId)] "odId" with
  | Except.error e => Except.error e
  | Except.ok key => Except.ok (hashDel store key)

/-- `app.isUserOnline(userId)` (lines 217-220): the body is
`hexists(users, odId) === 1` with only `userId` in scope — same
`ReferenceError`. -/
def isUserOnline (userId : String) (store : List (String × UserEntry)) :
    Except String Bool :=
  match lookupVar [("userId", userId)] "odId" with
  | Except.error e => Except.error e
  | Except.ok key => Except.ok (hashExists store key)

/-- C9 (code bug): every call to `setUserOnline` / `setUserOffline` /
`isUserOnline` faults with `ReferenceError: odId is not defined` — for every
choice of ordinary string arguments and every store — because the bodies
reference the undefined identifier `odId` where the `userId` parameter was
meant; no shared-store entry is ever written, removed, or read. -/
theorem userPresence_faults (userId socketId instanceId : String) (now : Nat)
    (store : List (String × UserEntry)) :
    setUserOnline userId socketId instanceId now store =
      Except.error "ReferenceError: odId is not defined" ∧
    setUserOffline userId store =
      Except.error "ReferenceError: odId is not defined" ∧
    isUserOnline userId store =
      Except.error "ReferenceError: odId is not defined" := by
  refine ⟨?_, ?_, ?_⟩ <;> rfl

/-- The presence operations evaluated at the concrete failing input
`setUserOnline("alice", "sock-1")` etc.: each rejects with the
`ReferenceError` instead of touching the store. -/
theorem userPresence_faults_concrete :
    setUserOnline "alice" "sock-1" "inst-1" 1700000000 [] =
      Except.error "ReferenceError: odId is not defined" ∧
    setUserOffline "alice" [] =
      Except.error "ReferenceError: odId is not defined" ∧
    isUserOnline "alice" [("alice", ⟨"sock-1", "inst-1", 1700000000⟩)] =
      Except.error "ReferenceError: odId is not defined" :=
  ⟨rfl, rfl, rfl⟩

end RedisAdapter

end EmitGG
